import Mathlib

/-!
Shallow embedding of the agent-orchestration core of the chronicler
client (`chronicler_client/agents/`): the base-agent execution lifecycle
(`base_agent.py`), the two concrete agents (`chronicler_agent.py`,
`mcp_agent.py`) and the agent manager (`agent_manager.py`).

Modelling conventions:
* wall-clock instants and elapsed durations (`time.time()` readings and
  differences) are `Nat` parameters supplied by the environment;
* ratios reported by the health/statistics snapshots are `Rat`;
* Python dicts (which iterate in insertion order) are association lists
  `List (String × α)` with unique keys, appended on insert;
* a raised Python exception is a `Fault` value carrying the exception
  class name and message, and a fallible computation is
  `Except Fault α`; the results of collaborator-service calls (audit
  service, registry, access control, the MCP client) are inputs of the
  model, since they depend on external systems.
-/

namespace Chronicler

/-- `AgentStatus` enum from `agent_types.py`. -/
inductive AgentStatus where
  | idle
  | running
  | error
  | disabled
  | registering
  deriving DecidableEq

/-- `AgentType` enum from `agent_types.py`. -/
inductive AgentType where
  | general
  | specialized
  | mcp
  | audit
  | registry
  | access_control
  deriving DecidableEq

/-- `AgentCapability` enum from `agent_types.py`. -/
inductive AgentCapability where
  | text_generation
  | code_generation
  | data_analysis
  | file_operations
  | web_search
  | blockchain_interaction
  | audit_logging
  | access_control
  | registry_management
  | mcp_protocol
  deriving DecidableEq

/-- A raised Python exception: the exception class name
(`type(e).__name__`) and the message (`str(e)`). -/
structure Fault where
  error_type : String
  msg : String
  deriving DecidableEq

/-- `AgentResponse` model from `base_agent.py`.  `output_data` and
`metadata` are string-keyed dictionaries; the optional `audit_result`
produced by the collaborating audit service is modelled opaquely. -/
structure AgentResponse where
  request_id : String
  agent_id : String
  output_data : List (String × String)
  status : String
  execution_time : Nat
  metadata : List (String × String)
  audit_result : Option Unit
  deriving DecidableEq

/-- Mutable state of a `BaseAgent` (`base_agent.py`, `__init__`):
identity and declared config, status, counters, rolling window of
execution durations, cache counters. -/
structure BaseAgent where
  agent_id : String
  name : String
  description : String
  agent_type : AgentType
  capabilities : List AgentCapability
  status : AgentStatus
  request_count : Nat
  error_count : Nat
  last_activity : Nat
  execution_times : List Nat
  cache_hits : Nat
  cache_misses : Nat
  deriving DecidableEq

/-- The state `BaseAgent.__init__` produces: Idle status, zero counters,
empty duration window, `cache_hits = cache_misses = 0`, last activity
set to the construction instant. -/
def BaseAgent.mk0 (id nm descr : String) (ty : AgentType)
    (caps : List AgentCapability) (now : Nat) : BaseAgent :=
  { agent_id := id
    name := nm
    description := descr
    agent_type := ty
    capabilities := caps
    status := AgentStatus.idle
    request_count := 0
    error_count := 0
    last_activity := now
    execution_times := []
    cache_hits := 0
    cache_misses := 0 }

/-- First-match association-list lookup: Python `d[k]` / `k in d` on an
insertion-ordered dict represented as a list of key-value pairs. -/
def lookupKey (k : String) : List (String × α) → Option α
  | [] => none
  | p :: rest => if p.1 = k then some p.2 else lookupKey k rest

/-- Python `l = l[-n:]` applied when the list has grown past `n`: keep
the most recent `n` entries. -/
def trimTo (n : Nat) (l : List α) : List α :=
  if n < l.length then l.drop (l.length - n) else l

/-- The agent execution context (`BaseAgent._execution_context`): on
entry set status Running, bump `request_count`, refresh
`last_activity`; if the body raises, bump `error_count` and re-raise;
in all cases (`finally`) append the elapsed duration to
`execution_times`, return to Idle, and trim the window to the last
100 entries. -/
def executionContext (a : BaseAgent) (now dur : Nat)
    (body : Except Fault AgentResponse) :
    BaseAgent × Except Fault AgentResponse :=
  let a1 := { a with
    status := AgentStatus.running
    request_count := a.request_count + 1
    last_activity := now }
  let a2 := match body with
    | Except.ok _ => a1
    | Except.error _ => { a1 with error_count := a1.error_count + 1 }
  let a3 := { a2 with
    execution_times := trimTo 100 (a2.execution_times ++ [dur])
    status := AgentStatus.idle }
  (a3, body)

/-- The error response built by the `except` clause of
`ChroniclerAgent.process_request` / `MCPAgent.process_request`:
status `"error"`, the message in `output_data`, the exception class
name under the `"error_type"` metadata key. -/
def errorResponse (agent_id rid : String) (f : Fault)
    (auditRes : Option Unit) : AgentResponse :=
  { request_id := rid
    agent_id := agent_id
    output_data := [("error", f.msg)]
    status := "error"
    execution_time := 0
    metadata := [("error_type", f.error_type)]
    audit_result := auditRes }

/-- The `try/except Exception` wrapped around the whole body of both
concrete agents' `process_request`: a fault raised inside the body is
captured and turned into an error `AgentResponse`; it is never
re-raised. -/
def catchFaults (agent_id rid : String) (auditRes : Option Unit)
    (body : Except Fault AgentResponse) : Except Fault AgentResponse :=
  match body with
  | Except.ok r => Except.ok r
  | Except.error f => Except.ok (errorResponse agent_id rid f auditRes)

/-- The `action_type` dispatch of `ChroniclerAgent.process_request`:
read `input_data.get("action_type", "audit")`, route the four known
tags to their handlers (whose outcomes, depending on collaborator
services, are given by `handlers`), and raise `ValueError` on an
unknown tag. -/
def ChroniclerAgent.dispatch (input : List (String × String))
    (handlers : String → Except Fault AgentResponse) :
    Except Fault AgentResponse :=
  let action_type := (lookupKey "action_type" input).getD "audit"
  if action_type = "audit" then handlers "audit"
  else if action_type = "registry" then handlers "registry"
  else if action_type = "access_control" then handlers "access_control"
  else if action_type = "blockchain" then handlers "blockchain"
  else Except.error
    { error_type := "ValueError"
      msg := "Unknown action type: " ++ action_type }

/-- `ChroniclerAgent.process_request`: the `action_type` dispatch runs
inside the execution context, with every fault captured by the inner
`except` and returned as an error response. -/
def ChroniclerAgent.process_request (a : BaseAgent) (rid : String)
    (input : List (String × String))
    (handlers : String → Except Fault AgentResponse)
    (auditRes : Option Unit) (now dur : Nat) :
    BaseAgent × Except Fault AgentResponse :=
  executionContext a now dur
    (catchFaults a.agent_id rid auditRes (ChroniclerAgent.dispatch input handlers))

/-- `MCPAgent.process_request`: the MCP chat-completion body (`body`,
an input of the model since it depends on the MCP client) runs inside
the execution context with the same capture-all `except` clause. -/
def MCPAgent.process_request (a : BaseAgent) (rid : String)
    (body : Except Fault AgentResponse)
    (auditRes : Option Unit) (now dur : Nat) :
    BaseAgent × Except Fault AgentResponse :=
  executionContext a now dur (catchFaults a.agent_id rid auditRes body)

/-- `BaseAgent.execute`: build a request with a fresh id and delegate
to the subclass's `process_request`.  Both concrete subclasses share
the boundary shape `executionContext ∘ catchFaults`, so `execute` is
modelled over the processing body. -/
def BaseAgent.execute (a : BaseAgent) (rid : String)
    (body : Except Fault AgentResponse)
    (auditRes : Option Unit) (now dur : Nat) :
    BaseAgent × Except Fault AgentResponse :=
  executionContext a now dur (catchFaults a.agent_id rid auditRes body)

/-- `BaseAgent.shutdown`: cancel the in-flight task if any and move to
Disabled (the state effect; task cancellation is cooperative I/O). -/
def BaseAgent.shutdown (a : BaseAgent) : BaseAgent :=
  { a with status := AgentStatus.disabled }

/-- Result of `BaseAgent.get_health_status`. -/
structure HealthStatus where
  agent_id : String
  status : AgentStatus
  request_count : Nat
  error_count : Nat
  error_rate : Rat
  last_activity : Nat
  uptime : Nat
  avg_execution_time : Rat
  cache_hit_rate : Rat
  deriving DecidableEq

/-- `BaseAgent.get_health_status`: pure read of the counters, with
`error_rate = error_count / max(request_count, 1)` and
`cache_hit_rate = cache_hits / max(cache_hits + cache_misses, 1)`. -/
def BaseAgent.get_health_status (a : BaseAgent) (now : Nat) : HealthStatus :=
  { agent_id := a.agent_id
    status := a.status
    request_count := a.request_count
    error_count := a.error_count
    error_rate := (a.error_count : Rat) / (max a.request_count 1 : Nat)
    last_activity := a.last_activity
    uptime := now - a.last_activity
    avg_execution_time :=
      if a.execution_times.isEmpty then 0
      else ((a.execution_times.map (fun d => (d : Rat))).sum) /
        (a.execution_times.length : Nat)
    cache_hit_rate :=
      (a.cache_hits : Rat) / (max (a.cache_hits + a.cache_misses) 1 : Nat) }

/-- The live-counter dictionary embedded in `AgentMetadata.metadata` by
`BaseAgent.get_metadata`. -/
structure LiveCounters where
  request_count : Nat
  error_count : Nat
  status : AgentStatus
  last_activity : Nat
  avg_execution_time : Rat
  cache_hits : Nat
  cache_misses : Nat
  deriving DecidableEq

/-- `AgentMetadata` snapshot returned by `BaseAgent.get_metadata`
(identity, declared config, live counters). -/
structure AgentMetadata where
  agent_id : String
  name : String
  description : String
  agent_type : AgentType
  capabilities : List AgentCapability
  metadata : LiveCounters
  deriving DecidableEq

/-- `BaseAgent.get_metadata`: pure snapshot of identity and counters. -/
def BaseAgent.get_metadata (a : BaseAgent) : AgentMetadata :=
  { agent_id := a.agent_id
    name := a.name
    description := a.description
    agent_type := a.agent_type
    capabilities := a.capabilities
    metadata :=
      { request_count := a.request_count
        error_count := a.error_count
        status := a.status
        last_activity := a.last_activity
        avg_execution_time :=
          if a.execution_times.isEmpty then 0
          else ((a.execution_times.map (fun d => (d : Rat))).sum) /
            (a.execution_times.length : Nat)
        cache_hits := a.cache_hits
        cache_misses := a.cache_misses } }

/-- Remove every entry with the given key: Python `del d[k]` on the
association-list representation. -/
def removeKey (k : String) (l : List (String × α)) : List (String × α) :=
  l.filter (fun p => p.1 ≠ k)

/-- Replace the value stored at a key, keeping position and key set:
the in-place mutation of the agent object held in `manager.agents`. -/
def setKey (k : String) (v : α) (l : List (String × α)) : List (String × α) :=
  l.map (fun p => if p.1 = k then (k, v) else p)

/-- `defaultdict(int)` increment `d[k] += 1`. -/
def bump (k : String) : List (String × Nat) → List (String × Nat)
  | [] => [(k, 1)]
  | p :: rest => if p.1 = k then (p.1, p.2 + 1) :: rest else p :: bump k rest

/-- Sum of the values of a counter dictionary
(`sum(d.values())`). -/
def sumVals (l : List (String × Nat)) : Nat :=
  (l.map (fun p => p.2)).sum

/-- `AgentManagerStats` model from `agent_manager.py`. -/
structure AgentManagerStats where
  total_agents : Nat
  active_agents : Nat
  idle_agents : Nat
  error_agents : Nat
  total_requests : Nat
  total_errors : Nat
  avg_response_time : Rat
  uptime : Nat
  deriving DecidableEq

/-- Mutable state of `AgentManager` (`__init__`): the primary agent
collection, the type and capability indexes, request history,
per-agent request/error counters, response-time window, start time,
and whether the health-check supervisor task is live. -/
structure AgentManager where
  agents : List (String × BaseAgent)
  agent_types : List (String × AgentType)
  agent_capabilities : List (String × List AgentCapability)
  request_history : List AgentResponse
  request_stats : List (String × Nat)
  error_stats : List (String × Nat)
  response_times : List Nat
  start_time : Nat
  health_check_running : Bool
  deriving DecidableEq

/-- The state `AgentManager.__init__` produces: empty collections and
counters, start time recorded, health-check task spawned when the
config enables it. -/
def AgentManager.mk0 (enable_health_checks : Bool) (now : Nat) : AgentManager :=
  { agents := []
    agent_types := []
    agent_capabilities := []
    request_history := []
    request_stats := []
    error_stats := []
    response_times := []
    start_time := now
    health_check_running := enable_health_checks }

/-- `AgentManager.register_agent`: return `false` when the id is
already present; otherwise add the agent to the primary collection and
to the type and capability indexes. -/
def AgentManager.register_agent (m : AgentManager) (a : BaseAgent) :
    AgentManager × Bool :=
  if (lookupKey a.agent_id m.agents).isSome then (m, false)
  else
    ({ m with
        agents := m.agents ++ [(a.agent_id, a)]
        agent_types := m.agent_types ++ [(a.agent_id, a.agent_type)]
        agent_capabilities := m.agent_capabilities ++ [(a.agent_id, a.capabilities)] },
      true)

/-- `AgentManager.unregister_agent`: return `false` on an unknown id;
otherwise shut the agent down (the shut-down object is then dropped)
and delete the id from all three maps. -/
def AgentManager.unregister_agent (m : AgentManager) (agent_id : String) :
    AgentManager × Bool :=
  match lookupKey agent_id m.agents with
  | none => (m, false)
  | some a =>
    let _shut := BaseAgent.shutdown a
    ({ m with
        agents := removeKey agent_id m.agents
        agent_types := removeKey agent_id m.agent_types
        agent_capabilities := removeKey agent_id m.agent_capabilities },
      true)

/-- `AgentManager.execute_request`: `none` on unknown id or an agent in
Error state; otherwise run `agent.execute`, overwrite the response's
`execution_time` with the manager-measured duration `mdur`, append it
to `response_times` and `request_history` (each trimmed to the last
1000), bump the per-agent request counter and, for an error response,
the per-agent error counter.  The outer `except` (reached only if
`execute` itself raised) bumps the error counter and returns `none`. -/
def AgentManager.execute_request (m : AgentManager) (agent_id rid : String)
    (body : Except Fault AgentResponse) (auditRes : Option Unit)
    (now dur mdur : Nat) : AgentManager × Option AgentResponse :=
  match lookupKey agent_id m.agents with
  | none => (m, none)
  | some a =>
    if a.status = AgentStatus.error then (m, none)
    else
      let (a2, res) := BaseAgent.execute a rid body auditRes now dur
      let m2 := { m with agents := setKey agent_id a2 m.agents }
      match res with
      | Except.ok r =>
        let r2 := { r with execution_time := mdur }
        ({ m2 with
            response_times := trimTo 1000 (m2.response_times ++ [mdur])
            request_history := trimTo 1000 (m2.request_history ++ [r2])
            request_stats := bump agent_id m2.request_stats
            error_stats :=
              if r2.status = "error" then bump agent_id m2.error_stats
              else m2.error_stats },
          some r2)
      | Except.error _ =>
        ({ m2 with error_stats := bump agent_id m2.error_stats }, none)

/-- Eligibility test of the loop in `find_agent_by_capability`: the
entry declares the capability and the corresponding live agent is not
in Error state. -/
def eligibleCap (agents : List (String × BaseAgent)) (c : AgentCapability)
    (p : String × List AgentCapability) : Bool :=
  decide (c ∈ p.2) &&
    (match lookupKey p.1 agents with
     | some a => decide (a.status ≠ AgentStatus.error)
     | none => false)

/-- Eligibility test of the loop in `find_agent_by_type`. -/
def eligibleType (agents : List (String × BaseAgent)) (ty : AgentType)
    (p : String × AgentType) : Bool :=
  decide (p.2 = ty) &&
    (match lookupKey p.1 agents with
     | some a => decide (a.status ≠ AgentStatus.error)
     | none => false)

/-- The `for` loop with early return shared by both find methods:
return the key of the first entry satisfying the predicate. -/
def findLoop (pred : String × α → Bool) : List (String × α) → Option String
  | [] => none
  | p :: rest => if pred p then some p.1 else findLoop pred rest

/-- `AgentManager.find_agent_by_capability`: first entry of the
capability index (iteration order = registration order) declaring the
capability with its agent not in Error state. -/
def AgentManager.find_agent_by_capability (m : AgentManager)
    (c : AgentCapability) : Option String :=
  findLoop (eligibleCap m.agents c) m.agent_capabilities

/-- `AgentManager.find_agent_by_type`: analogous over the type index. -/
def AgentManager.find_agent_by_type (m : AgentManager)
    (ty : AgentType) : Option String :=
  findLoop (eligibleType m.agents ty) m.agent_types

/-- `AgentManager.get_manager_stats`: derived snapshot, recomputed from
the live collections each call. -/
def AgentManager.get_manager_stats (m : AgentManager) (now : Nat) :
    AgentManagerStats :=
  { total_agents := m.agents.length
    active_agents :=
      (m.agents.filter (fun p => p.2.status = AgentStatus.running)).length
    idle_agents :=
      (m.agents.filter (fun p => p.2.status = AgentStatus.idle)).length
    error_agents :=
      (m.agents.filter (fun p => p.2.status = AgentStatus.error)).length
    total_requests := sumVals m.request_stats
    total_errors := sumVals m.error_stats
    avg_response_time :=
      if m.response_times.isEmpty then 0
      else ((m.response_times.map (fun d => (d : Rat))).sum) /
        (m.response_times.length : Nat)
    uptime := now - m.start_time }

/-- `AgentManager.shutdown`: cancel the health-check task (awaiting its
cancellation), then shut down every registered agent. -/
def AgentManager.shutdown (m : AgentManager) : AgentManager :=
  { m with
      health_check_running := false
      agents := m.agents.map (fun p => (p.1, BaseAgent.shutdown p.2)) }

/-- One observable manager-level operation.  `register` carries the
constructor arguments of the fresh agent being registered (agents are
always built through `BaseAgent.__init__`); `execReq` carries the
request id, the processing-body outcome, the audit-service outcome and
the three clock readings; `healthCheck` is one body of the supervisor
loop (pure reads and logging, no state change). -/
inductive MOp where
  | register (id nm descr : String) (ty : AgentType)
      (caps : List AgentCapability) (now : Nat)
  | unregister (id : String)
  | execReq (id rid : String) (body : Except Fault AgentResponse)
      (auditRes : Option Unit) (now dur mdur : Nat)
  | healthCheck
  | managerShutdown

/-- Effect of one manager-level operation on the manager state. -/
def step (m : AgentManager) (op : MOp) : AgentManager :=
  match op with
  | MOp.register id nm descr ty caps now =>
    (m.register_agent (BaseAgent.mk0 id nm descr ty caps now)).1
  | MOp.unregister id => (m.unregister_agent id).1
  | MOp.execReq id rid body auditRes now dur mdur =>
    (m.execute_request id rid body auditRes now dur mdur).1
  | MOp.healthCheck => m
  | MOp.managerShutdown => m.shutdown

/-- Manager state reached from a fresh manager by a sequence of
operations. -/
def reach (enable_health_checks : Bool) (t : Nat) (ops : List MOp) :
    AgentManager :=
  ops.foldl step (AgentManager.mk0 enable_health_checks t)

/-- Index-consistency invariant of claim C8: the three maps list the
same ids in the same order, without duplicates. -/
def keysAligned (m : AgentManager) : Prop :=
  m.agent_types.map Prod.fst = m.agents.map Prod.fst ∧
  m.agent_capabilities.map Prod.fst = m.agents.map Prod.fst ∧
  (m.agents.map Prod.fst).Nodup

/-- Rolling-window invariant of claim C6: at most 100 duration samples
per agent, at most 1000 manager-wide response times and history
entries. -/
def windowsBounded (m : AgentManager) : Prop :=
  (∀ p ∈ m.agents, p.2.execution_times.length ≤ 100) ∧
  m.response_times.length ≤ 1000 ∧
  m.request_history.length ≤ 1000

/-- Cache-counter invariant of claim C10: no code path ever writes the
cache counters, so they keep their initial value 0. -/
def cacheZero (m : AgentManager) : Prop :=
  ∀ p ∈ m.agents, p.2.cache_hits = 0 ∧ p.2.cache_misses = 0

/-- Concrete fault used to instantiate the claim theorems. -/
def sampleFault : Fault := { error_type := "RuntimeError", msg := "boom" }

/-- The fault `ChroniclerAgent.process_request` raises on an unknown
`action_type` tag. -/
def sampleUnknownFault : Fault :=
  { error_type := "ValueError", msg := "Unknown action type: bogus" }

/-- Concrete freshly-constructed agent. -/
def sampleAgent : BaseAgent :=
  BaseAgent.mk0 "a1" "agent one" "demo" AgentType.audit
    [AgentCapability.audit_logging] 0

/-- Concrete handler outcomes (every sub-handler raises). -/
def sampleHandlers : String → Except Fault AgentResponse :=
  fun _ => Except.error sampleFault

/-- Input payload with an unknown `action_type` tag. -/
def sampleBogusInput : List (String × String) := [("action_type", "bogus")]

/-- Trace registering one fresh agent. -/
def sampleOps : List MOp :=
  [MOp.register "a1" "agent one" "demo" AgentType.audit
    [AgentCapability.audit_logging] 0]

/-- Trace registering one fresh agent and then shutting the manager
down, leaving the agent Disabled. -/
def sampleShutdownOps : List MOp :=
  sampleOps ++ [MOp.managerShutdown]

/- ### Association-list lemmas -/

theorem lookupKey_append_some {α : Type} {l1 l2 : List (String × α)}
    {k : String} {v : α} (h : lookupKey k l1 = some v) :
    lookupKey k (l1 ++ l2) = some v := by
  induction l1 with
  | nil => simp [lookupKey] at h
  | cons p rest ih =>
    rw [List.cons_append]
    simp only [lookupKey] at h ⊢
    split at h
    next hp => rw [if_pos hp]; exact h
    next hp => rw [if_neg hp]; exact ih h

theorem lookupKey_eq_none_iff {α : Type} (k : String) (l : List (String × α)) :
    lookupKey k l = none ↔ k ∉ l.map Prod.fst := by
  induction l with
  | nil => simp [lookupKey]
  | cons p rest ih =>
    simp only [lookupKey, List.map_cons, List.mem_cons]
    by_cases hp : p.1 = k
    · simp [hp]
    · have : ¬ k = p.1 := fun h => hp h.symm
      simp [hp, ih, this]

theorem lookupKey_mem {α : Type} {l : List (String × α)} {k : String} {v : α}
    (h : lookupKey k l = some v) : (k, v) ∈ l := by
  induction l with
  | nil => simp [lookupKey] at h
  | cons p rest ih =>
    simp only [lookupKey] at h
    split at h
    next hp =>
      cases h
      subst hp
      exact List.mem_cons_self _ _
    next hp => exact List.mem_cons_of_mem _ (ih h)

theorem lookupKey_removeKey {α : Type} (k k2 : String) (l : List (String × α)) :
    lookupKey k (removeKey k2 l) = if k = k2 then none else lookupKey k l := by
  induction l with
  | nil => simp [removeKey, lookupKey]
  | cons p rest ih =>
    by_cases hp : p.1 = k2
    · have hdrop : removeKey k2 (p :: rest) = removeKey k2 rest := by
        simp [removeKey, List.filter_cons, hp]
      rw [hdrop, ih]
      by_cases hk : k = k2
      · simp [hk]
      · have hpk : ¬ p.1 = k := by rw [hp]; exact fun h => hk h.symm
        simp [lookupKey, hpk, hk]
    · have hkeep : removeKey k2 (p :: rest) = p :: removeKey k2 rest := by
        simp [removeKey, List.filter_cons, hp]
      rw [hkeep]
      by_cases hpk : p.1 = k
      · have hk : ¬ k = k2 := fun h => hp (hpk.trans h)
        simp [lookupKey, hpk, hk]
      · simp [lookupKey, hpk, ih]

theorem lookupKey_setKey {α : Type} (k k2 : String) (v : α) (l : List (String × α)) :
    lookupKey k (setKey k2 v l) =
      if k = k2 then (lookupKey k2 l).map (fun _ => v) else lookupKey k l := by
  induction l with
  | nil => simp [setKey, lookupKey]
  | cons p rest ih =>
    have hcons : setKey k2 v (p :: rest)
        = (if p.1 = k2 then (k2, v) else p) :: setKey k2 v rest := rfl
    rw [hcons]
    by_cases hp : p.1 = k2
    · rw [if_pos hp]
      by_cases hk : k = k2
      · simp [lookupKey, hk, hp]
      · have hk2 : ¬ k2 = k := fun h => hk h.symm
        have hpk : ¬ p.1 = k := by rw [hp]; exact hk2
        simp [lookupKey, hk2, hk, hpk, ih]
    · rw [if_neg hp]
      by_cases hpk : p.1 = k
      · have hk : ¬ k = k2 := fun h => hp (hpk.trans h)
        simp [lookupKey, hpk, hk]
      · simp [lookupKey, hpk, hp, ih]

theorem map_fst_setKey {α : Type} (k : String) (v : α) (l : List (String × α)) :
    (setKey k v l).map Prod.fst = l.map Prod.fst := by
  induction l with
  | nil => rfl
  | cons p rest ih =>
    simp only [setKey, List.map_cons] at ih ⊢
    by_cases hp : p.1 = k
    · simp [hp, ih]
    · simp [hp, ih]

theorem map_fst_removeKey {α : Type} (k : String) (l : List (String × α)) :
    (removeKey k l).map Prod.fst = (l.map Prod.fst).filter (fun x => x ≠ k) := by
  induction l with
  | nil => rfl
  | cons p rest ih =>
    by_cases hp : p.1 = k
    · simp [removeKey, List.filter_cons, hp] at ih ⊢
      exact ih
    · simp [removeKey, List.filter_cons, hp] at ih ⊢
      exact ih

theorem lookupKey_isSome_congr {α β : Type} {l1 : List (String × α)}
    {l2 : List (String × β)} (h : l1.map Prod.fst = l2.map Prod.fst)
    (k : String) : (lookupKey k l1).isSome = (lookupKey k l2).isSome := by
  induction l1 generalizing l2 with
  | nil =>
    cases l2 with
    | nil => rfl
    | cons q rest2 => simp at h
  | cons p rest ih =>
    cases l2 with
    | nil => simp at h
    | cons q rest2 =>
      simp only [List.map_cons, List.cons.injEq] at h
      obtain ⟨h1, h2⟩ := h
      simp only [lookupKey, h1]
      by_cases hk : q.1 = k
      · simp [hk]
      · simp [hk, ih h2]

/- ### Trimming lemmas -/

theorem trimTo_length {α : Type} (n : Nat) (l : List α) :
    (trimTo n l).length = if n < l.length then n else l.length := by
  unfold trimTo
  split
  next h => simp; omega
  next _ => rfl

theorem trimTo_length_le {α : Type} (n : Nat) (l : List α) :
    (trimTo n l).length ≤ n := by
  rw [trimTo_length]
  split <;> omega

theorem trimTo_suffix {α : Type} (n : Nat) (l : List α) : trimTo n l <:+ l := by
  unfold trimTo
  split
  · exact List.drop_suffix _ _
  · exact List.suffix_refl l

/- ### Execution-boundary lemmas -/

theorem catchFaults_ok (aid rid : String) (au : Option Unit) (r : AgentResponse) :
    catchFaults aid rid au (Except.ok r) = Except.ok r := rfl

theorem catchFaults_err (aid rid : String) (au : Option Unit) (f : Fault) :
    catchFaults aid rid au (Except.error f) =
      Except.ok (errorResponse aid rid f au) := rfl

theorem execute_eq (a : BaseAgent) (rid : String)
    (body : Except Fault AgentResponse) (au : Option Unit) (now dur : Nat) :
    BaseAgent.execute a rid body au now dur =
      ({ a with
          status := AgentStatus.idle
          request_count := a.request_count + 1
          last_activity := now
          execution_times := trimTo 100 (a.execution_times ++ [dur]) },
        Except.ok (match body with
          | Except.ok r => r
          | Except.error f => errorResponse a.agent_id rid f au)) := by
  cases body <;> rfl

theorem execute_snd_isOk (a : BaseAgent) (rid : String)
    (body : Except Fault AgentResponse) (au : Option Unit) (now dur : Nat) :
    ∃ r, (BaseAgent.execute a rid body au now dur).2 = Except.ok r := by
  rw [execute_eq]
  exact ⟨_, rfl⟩

theorem execute_request_known (m : AgentManager) (id rid : String)
    (body : Except Fault AgentResponse) (au : Option Unit)
    (now dur mdur : Nat) (a : BaseAgent)
    (h1 : lookupKey id m.agents = some a)
    (hne : ¬ a.status = AgentStatus.error) :
    m.execute_request id rid body au now dur mdur =
      ({ m with
          agents := setKey id (BaseAgent.execute a rid body au now dur).1
            m.agents
          response_times := trimTo 1000 (m.response_times ++ [mdur])
          request_history := trimTo 1000 (m.request_history ++
            [{ (match body with
                | Except.ok r => r
                | Except.error f => errorResponse a.agent_id rid f au) with
                execution_time := mdur }])
          request_stats := bump id m.request_stats
          error_stats :=
            if ({ (match body with
                | Except.ok r => r
                | Except.error f => errorResponse a.agent_id rid f au) with
                execution_time := mdur }).status = "error"
            then bump id m.error_stats else m.error_stats },
        some { (match body with
            | Except.ok r => r
            | Except.error f => errorResponse a.agent_id rid f au) with
            execution_time := mdur }) := by
  unfold AgentManager.execute_request
  rw [h1]
  simp only [if_neg hne, execute_eq]

/- ### Find-loop lemmas -/

theorem findLoop_some_first {α : Type} {pred : String × α → Bool}
    {l : List (String × α)} {id : String} (h : findLoop pred l = some id) :
    ∃ pre v post, l = pre ++ (id, v) :: post ∧ pred (id, v) = true ∧
      ∀ q ∈ pre, pred q = false := by
  induction l with
  | nil => simp [findLoop] at h
  | cons p rest ih =>
    simp only [findLoop] at h
    split at h
    next hp =>
      cases h
      exact ⟨[], p.2, rest, by simp, by simpa using hp, by simp⟩
    next hp =>
      obtain ⟨pre, v, post, hl, hv, hpre⟩ := ih h
      refine ⟨p :: pre, v, post, by rw [hl]; rfl, hv, ?_⟩
      intro q hq
      rcases List.mem_cons.mp hq with hq | hq
      · subst hq
        exact Bool.not_eq_true _ |>.mp hp
      · exact hpre q hq

theorem findLoop_none_iff {α : Type} (pred : String × α → Bool)
    (l : List (String × α)) :
    findLoop pred l = none ↔ ∀ q ∈ l, pred q = false := by
  induction l with
  | nil => simp [findLoop]
  | cons p rest ih =>
    simp only [findLoop]
    split
    next hp => simp only [List.mem_cons]; constructor
                 <;> intro h
                 <;> [cases h; exact absurd (h p (Or.inl rfl)) (by simp [hp])]
    next hp =>
      rw [ih]
      constructor
      · intro h q hq
        rcases List.mem_cons.mp hq with hq | hq
        · subst hq; exact Bool.not_eq_true _ |>.mp hp
        · exact h q hq
      · intro h q hq
        exact h q (List.mem_cons_of_mem _ hq)

theorem eligibleCap_iff (agents : List (String × BaseAgent))
    (c : AgentCapability) (p : String × List AgentCapability) :
    eligibleCap agents c p = true ↔
      c ∈ p.2 ∧ ∃ a, lookupKey p.1 agents = some a ∧
        a.status ≠ AgentStatus.error := by
  unfold eligibleCap
  cases hl : lookupKey p.1 agents with
  | none => simp [hl]
  | some a => simp [hl]

theorem eligibleType_iff (agents : List (String × BaseAgent))
    (ty : AgentType) (p : String × AgentType) :
    eligibleType agents ty p = true ↔
      p.2 = ty ∧ ∃ a, lookupKey p.1 agents = some a ∧
        a.status ≠ AgentStatus.error := by
  unfold eligibleType
  cases hl : lookupKey p.1 agents with
  | none => simp [hl]
  | some a => simp [hl]

/- ### Invariant machinery over operation traces -/

theorem foldl_step_inv (P : AgentManager → Prop)
    (hstep : ∀ m op, P m → P (step m op)) :
    ∀ (ops : List MOp) (m : AgentManager), P m → P (ops.foldl step m) := by
  intro ops
  induction ops with
  | nil => intro m h; exact h
  | cons op rest ih => intro m h; exact ih (step m op) (hstep m op h)

theorem step_agents_shape (m : AgentManager) (op : MOp) :
    (step m op).agents = m.agents ∨
    (∃ id nm descr ty caps now,
      op = MOp.register id nm descr ty caps now ∧
      lookupKey id m.agents = none ∧
      (step m op).agents = m.agents ++ [(id, BaseAgent.mk0 id nm descr ty caps now)]) ∨
    (∃ id, (step m op).agents = removeKey id m.agents) ∨
    (∃ id a rid body au now dur mdur,
      op = MOp.execReq id rid body au now dur mdur ∧
      lookupKey id m.agents = some a ∧
      (step m op).agents =
        setKey id (BaseAgent.execute a rid body au now dur).1 m.agents) ∨
    (op = MOp.managerShutdown ∧
      (step m op).agents = m.agents.map (fun p => (p.1, BaseAgent.shutdown p.2))) := by
  cases op with
  | register id nm descr ty caps now =>
    by_cases h : (lookupKey id m.agents).isSome
    · left
      simp [step, AgentManager.register_agent, BaseAgent.mk0, h]
    · right; left
      refine ⟨id, nm, descr, ty, caps, now, rfl, ?_, ?_⟩
      · cases hl : lookupKey id m.agents with
        | none => rfl
        | some a => rw [hl] at h; simp at h
      · simp [step, AgentManager.register_agent, BaseAgent.mk0, h]
  | unregister id =>
    cases hl : lookupKey id m.agents with
    | none => left; simp [step, AgentManager.unregister_agent, hl]
    | some a =>
      right; right; left
      exact ⟨id, by simp [step, AgentManager.unregister_agent, hl]⟩
  | execReq id rid body au now dur mdur =>
    cases hl : lookupKey id m.agents with
    | none => left; simp [step, AgentManager.execute_request, hl]
    | some a =>
      by_cases hs : a.status = AgentStatus.error
      · left; simp [step, AgentManager.execute_request, hl, hs]
      · right; right; right; left
        refine ⟨id, a, rid, body, au, now, dur, mdur, rfl, hl, ?_⟩
        simp only [step, AgentManager.execute_request, hl, if_neg hs]
        rcases hb : (BaseAgent.execute a rid body au now dur) with ⟨a2, res⟩
        cases res <;> simp
  | healthCheck => left; rfl
  | managerShutdown => right; right; right; right; exact ⟨rfl, rfl⟩

theorem step_response_times_shape (m : AgentManager) (op : MOp) :
    (step m op).response_times = m.response_times ∨
    ∃ mdur, (step m op).response_times =
      trimTo 1000 (m.response_times ++ [mdur]) := by
  cases op with
  | register id nm descr ty caps now =>
    left
    by_cases h : (lookupKey (BaseAgent.mk0 id nm descr ty caps now).agent_id m.agents).isSome
    · simp [step, AgentManager.register_agent, h]
    · simp [step, AgentManager.register_agent, h]
  | unregister id =>
    left
    cases hl : lookupKey id m.agents <;>
      simp [step, AgentManager.unregister_agent, hl]
  | execReq id rid body au now dur mdur =>
    cases hl : lookupKey id m.agents with
    | none => left; simp [step, AgentManager.execute_request, hl]
    | some a =>
      by_cases hs : a.status = AgentStatus.error
      · left; simp [step, AgentManager.execute_request, hl, hs]
      · simp only [step, AgentManager.execute_request, hl, if_neg hs]
        rcases hb : BaseAgent.execute a rid body au now dur with ⟨a2, res⟩
        cases res with
        | ok r => right; exact ⟨mdur, by simp⟩
        | error f => left; simp
  | healthCheck => left; rfl
  | managerShutdown => left; rfl

theorem step_request_history_shape (m : AgentManager) (op : MOp) :
    (step m op).request_history = m.request_history ∨
    ∃ r, (step m op).request_history =
      trimTo 1000 (m.request_history ++ [r]) := by
  cases op with
  | register id nm descr ty caps now =>
    left
    by_cases h : (lookupKey (BaseAgent.mk0 id nm descr ty caps now).agent_id m.agents).isSome
    · simp [step, AgentManager.register_agent, h]
    · simp [step, AgentManager.register_agent, h]
  | unregister id =>
    left
    cases hl : lookupKey id m.agents <;>
      simp [step, AgentManager.unregister_agent, hl]
  | execReq id rid body au now dur mdur =>
    cases hl : lookupKey id m.agents with
    | none => left; simp [step, AgentManager.execute_request, hl]
    | some a =>
      by_cases hs : a.status = AgentStatus.error
      · left; simp [step, AgentManager.execute_request, hl, hs]
      · simp only [step, AgentManager.execute_request, hl, if_neg hs]
        rcases hb : BaseAgent.execute a rid body au now dur with ⟨a2, res⟩
        cases res with
        | ok r => right; exact ⟨{ r with execution_time := mdur }, by simp⟩
        | error f => left; simp
  | healthCheck => left; rfl
  | managerShutdown => left; rfl

theorem windowsBounded_step (m : AgentManager) (op : MOp)
    (h : windowsBounded m) : windowsBounded (step m op) := by
  obtain ⟨hAg, hResp, hHist⟩ := h
  refine ⟨?_, ?_, ?_⟩
  · rcases step_agents_shape m op with hsh | hsh | hsh | hsh | ⟨_, hsh⟩
    · rw [hsh]; exact hAg
    · obtain ⟨id, nm, descr, ty, caps, now, _, _, hsh⟩ := hsh
      rw [hsh]
      intro p hp
      rcases List.mem_append.mp hp with hp | hp
      · exact hAg p hp
      · rcases List.mem_singleton.mp hp with rfl
        simp [BaseAgent.mk0]
    · obtain ⟨id, hsh⟩ := hsh
      rw [hsh]
      intro p hp
      exact hAg p (List.mem_of_mem_filter hp)
    · obtain ⟨id, a, rid, body, au, now, dur, mdur, _, hla, hsh⟩ := hsh
      rw [hsh]
      intro p hp
      rcases List.mem_map.mp hp with ⟨q, hq, hqe⟩
      by_cases hqk : q.1 = id
      · rw [if_pos hqk] at hqe
        subst hqe
        simp only [execute_eq]
        exact trimTo_length_le 100 _
      · rw [if_neg hqk] at hqe
        subst hqe
        exact hAg q hq
    · rw [hsh]
      intro p hp
      rcases List.mem_map.mp hp with ⟨q, hq, hqe⟩
      subst hqe
      exact hAg q hq
  · rcases step_response_times_shape m op with hsh | ⟨mdur, hsh⟩
    · rw [hsh]; exact hResp
    · rw [hsh]; exact trimTo_length_le 1000 _
  · rcases step_request_history_shape m op with hsh | ⟨r, hsh⟩
    · rw [hsh]; exact hHist
    · rw [hsh]; exact trimTo_length_le 1000 _

theorem windowsBounded_reach (hc : Bool) (t : Nat) (ops : List MOp) :
    windowsBounded (reach hc t ops) := by
  refine foldl_step_inv windowsBounded windowsBounded_step ops _ ?_
  refine ⟨?_, ?_, ?_⟩ <;> simp [AgentManager.mk0]

theorem cacheZero_step (m : AgentManager) (op : MOp)
    (h : cacheZero m) : cacheZero (step m op) := by
  rcases step_agents_shape m op with hsh | hsh | hsh | hsh | ⟨_, hsh⟩
  · intro p hp; rw [hsh] at hp; exact h p hp
  · obtain ⟨id, nm, descr, ty, caps, now, _, _, hsh⟩ := hsh
    intro p hp
    rw [hsh] at hp
    rcases List.mem_append.mp hp with hp | hp
    · exact h p hp
    · rcases List.mem_singleton.mp hp with rfl
      simp [BaseAgent.mk0]
  · obtain ⟨id, hsh⟩ := hsh
    intro p hp
    rw [hsh] at hp
    exact h p (List.mem_of_mem_filter hp)
  · obtain ⟨id, a, rid, body, au, now, dur, mdur, _, hla, hsh⟩ := hsh
    intro p hp
    rw [hsh] at hp
    rcases List.mem_map.mp hp with ⟨q, hq, hqe⟩
    by_cases hqk : q.1 = id
    · rw [if_pos hqk] at hqe
      subst hqe
      simp only [execute_eq]
      exact h (id, a) (lookupKey_mem hla)
    · rw [if_neg hqk] at hqe
      subst hqe
      exact h q hq
  · intro p hp
    rw [hsh] at hp
    rcases List.mem_map.mp hp with ⟨q, hq, hqe⟩
    subst hqe
    exact h q hq

theorem cacheZero_reach (hc : Bool) (t : Nat) (ops : List MOp) :
    cacheZero (reach hc t ops) := by
  refine foldl_step_inv cacheZero cacheZero_step ops _ ?_
  intro p hp
  simp [AgentManager.mk0] at hp

theorem keysAligned_step (m : AgentManager) (op : MOp)
    (h : keysAligned m) : keysAligned (step m op) := by
  obtain ⟨hT, hC, hN⟩ := h
  cases op with
  | register id nm descr ty caps now =>
    by_cases hl : (lookupKey (BaseAgent.mk0 id nm descr ty caps now).agent_id
        m.agents).isSome
    · simp only [step, AgentManager.register_agent, hl, if_pos]
      exact ⟨hT, hC, hN⟩
    · have hnone : lookupKey id m.agents = none := by
        cases hx : lookupKey id m.agents with
        | none => rfl
        | some a =>
          rw [show (BaseAgent.mk0 id nm descr ty caps now).agent_id = id from rfl,
            hx] at hl
          simp at hl
      have hid : id ∉ m.agents.map Prod.fst :=
        (lookupKey_eq_none_iff id m.agents).mp hnone
      refine ⟨?_, ?_, ?_⟩ <;>
        simp only [step, AgentManager.register_agent, BaseAgent.mk0, hnone,
          Option.isSome_none, Bool.false_eq_true, if_false, List.map_append,
          List.map_cons, List.map_nil]
      · rw [hT]
      · rw [hC]
      · rw [List.nodup_append]
        refine ⟨hN, List.nodup_singleton id, ?_⟩
        intro x hx hx2
        rcases List.mem_singleton.mp hx2 with rfl
        exact hid hx
  | unregister id =>
    cases hx : lookupKey id m.agents with
    | none =>
      simp only [step, AgentManager.unregister_agent, hx]
      exact ⟨hT, hC, hN⟩
    | some a =>
      refine ⟨?_, ?_, ?_⟩ <;>
        simp only [step, AgentManager.unregister_agent, hx, map_fst_removeKey]
      · rw [hT]
      · rw [hC]
      · exact hN.filter _
  | execReq id rid body au now dur mdur =>
    cases hx : lookupKey id m.agents with
    | none =>
      simp only [step, AgentManager.execute_request, hx]
      exact ⟨hT, hC, hN⟩
    | some a =>
      by_cases hs : a.status = AgentStatus.error
      · simp only [step, AgentManager.execute_request, hx, if_pos hs]
        exact ⟨hT, hC, hN⟩
      · simp only [step, AgentManager.execute_request, hx, if_neg hs]
        rcases hb : BaseAgent.execute a rid body au now dur with ⟨a2, res⟩
        cases res with
        | ok r =>
          refine ⟨?_, ?_, ?_⟩ <;> simp only [map_fst_setKey]
          · exact hT
          · exact hC
          · exact hN
        | error f =>
          refine ⟨?_, ?_, ?_⟩ <;> simp only [map_fst_setKey]
          · exact hT
          · exact hC
          · exact hN
  | healthCheck => exact ⟨hT, hC, hN⟩
  | managerShutdown =>
    have hkeys : (m.agents.map (fun p => (p.1, BaseAgent.shutdown p.2))).map
        Prod.fst = m.agents.map Prod.fst := by
      rw [List.map_map]; rfl
    refine ⟨?_, ?_, ?_⟩ <;>
      simp only [step, AgentManager.shutdown, hkeys]
    · exact hT
    · exact hC
    · exact hN

theorem keysAligned_reach (hc : Bool) (t : Nat) (ops : List MOp) :
    keysAligned (reach hc t ops) := by
  refine foldl_step_inv keysAligned keysAligned_step ops _ ?_
  exact ⟨rfl, rfl, List.nodup_nil⟩

/- ### Claim theorems -/

/-- C1, counterexample: a `ChroniclerAgent.process_request` call whose
processing step faults (unknown `action_type`) returns an error
response, yet the agent's `error_count` after the call is 0, not
`error_count before + 1`: the inner `except` returns the error
response before the fault can reach the execution context's
error-counting branch. -/
theorem C1_counterexample :
    (ChroniclerAgent.process_request sampleAgent "r1" sampleBogusInput
        sampleHandlers none 5 3).2 =
      Except.ok (errorResponse "a1" "r1" sampleUnknownFault none) ∧
    (errorResponse "a1" "r1" sampleUnknownFault none).status = "error" ∧
    ¬ ((ChroniclerAgent.process_request sampleAgent "r1" sampleBogusInput
        sampleHandlers none 5 3).1.error_count =
      sampleAgent.error_count + 1) := by
  refine ⟨rfl, rfl, by decide⟩

/-- C1 (amended): when the processing step of
`ChroniclerAgent.process_request` faults, the transition back to Idle
appends the elapsed duration to the rolling window (evicting beyond
100), but leaves the agent's `error_count` unchanged: the fault is
converted to an error response before it can reach the execution
context's error-counting branch. -/
theorem C1_error_keeps_agent_error_count
    (a : BaseAgent) (rid : String) (input : List (String × String))
    (handlers : String → Except Fault AgentResponse) (auditRes : Option Unit)
    (now dur : Nat) (f : Fault)
    (hf : ChroniclerAgent.dispatch input handlers = Except.error f) :
    (ChroniclerAgent.process_request a rid input handlers auditRes now dur).2 =
      Except.ok (errorResponse a.agent_id rid f auditRes) ∧
    (errorResponse a.agent_id rid f auditRes).status = "error" ∧
    (ChroniclerAgent.process_request a rid input handlers auditRes now
        dur).1.execution_times = trimTo 100 (a.execution_times ++ [dur]) ∧
    (ChroniclerAgent.process_request a rid input handlers auditRes now
        dur).1.status = AgentStatus.idle ∧
    (ChroniclerAgent.process_request a rid input handlers auditRes now
        dur).1.error_count = a.error_count := by
  unfold ChroniclerAgent.process_request
  rw [hf]
  exact ⟨rfl, rfl, rfl, rfl, rfl⟩

/-- C1 witness: the amended theorem applied at a concrete faulting
request. -/
theorem C1_error_keeps_agent_error_count_witness :
    (ChroniclerAgent.process_request sampleAgent "r1" sampleBogusInput
        sampleHandlers none 5 3).1.error_count = sampleAgent.error_count :=
  (C1_error_keeps_agent_error_count sampleAgent "r1" sampleBogusInput
    sampleHandlers none 5 3 sampleUnknownFault rfl).2.2.2.2

/-- C2: neither concrete agent ever propagates a fault past `execute`:
whatever the processing body does, the result is an `Except.ok`
response, and when the body faults the returned response has status
`"error"` and carries the exception class name under the
`"error_type"` metadata key. -/
theorem C2_faults_captured_at_boundary
    (a : BaseAgent) (rid : String) (input : List (String × String))
    (handlers : String → Except Fault AgentResponse)
    (mcpBody : Except Fault AgentResponse) (auditRes : Option Unit)
    (now dur : Nat) :
    (∃ r, (ChroniclerAgent.process_request a rid input handlers auditRes now
      dur).2 = Except.ok r) ∧
    (∃ r, (MCPAgent.process_request a rid mcpBody auditRes now dur).2 =
      Except.ok r) ∧
    (∀ f, ChroniclerAgent.dispatch input handlers = Except.error f →
      (ChroniclerAgent.process_request a rid input handlers auditRes now
          dur).2 = Except.ok (errorResponse a.agent_id rid f auditRes) ∧
      (errorResponse a.agent_id rid f auditRes).status = "error" ∧
      lookupKey "error_type" (errorResponse a.agent_id rid f auditRes).metadata
        = some f.error_type) ∧
    (∀ f, mcpBody = Except.error f →
      (MCPAgent.process_request a rid mcpBody auditRes now dur).2 =
        Except.ok (errorResponse a.agent_id rid f auditRes) ∧
      (errorResponse a.agent_id rid f auditRes).status = "error" ∧
      lookupKey "error_type" (errorResponse a.agent_id rid f auditRes).metadata
        = some f.error_type) := by
  refine ⟨?_, ?_, ?_, ?_⟩
  · unfold ChroniclerAgent.process_request
    cases ChroniclerAgent.dispatch input handlers <;> exact ⟨_, rfl⟩
  · unfold MCPAgent.process_request
    cases mcpBody <;> exact ⟨_, rfl⟩
  · intro f hf
    unfold ChroniclerAgent.process_request
    rw [hf]
    exact ⟨rfl, rfl, by simp [errorResponse, lookupKey]⟩
  · intro f hf
    unfold MCPAgent.process_request
    rw [hf]
    exact ⟨rfl, rfl, by simp [errorResponse, lookupKey]⟩

/-- C2 witness: the boundary theorem applied at a concrete faulting
request of each agent. -/
theorem C2_faults_captured_at_boundary_witness :
    (ChroniclerAgent.process_request sampleAgent "r1" sampleBogusInput
        sampleHandlers none 5 3).2 =
      Except.ok (errorResponse sampleAgent.agent_id "r1" sampleUnknownFault
        none) ∧
    lookupKey "error_type"
      (errorResponse sampleAgent.agent_id "r1" sampleUnknownFault
        none).metadata = some sampleUnknownFault.error_type ∧
    (MCPAgent.process_request sampleAgent "r1" (Except.error sampleFault) none
        5 3).2 =
      Except.ok (errorResponse sampleAgent.agent_id "r1" sampleFault none) := by
  have h := C2_faults_captured_at_boundary sampleAgent "r1" sampleBogusInput
    sampleHandlers (Except.error sampleFault) none 5 3
  have h1 := h.2.2.1 sampleUnknownFault rfl
  have h2 := h.2.2.2 sampleFault rfl
  exact ⟨h1.1, h1.2.2, h2.1⟩

/-- C3: `execute_request` on an id absent from the agents collection
returns `None` and leaves the manager state - in particular
`request_stats`, `error_stats`, `request_history`, `response_times`,
hence `total_requests` and `total_errors` of the statistics snapshot -
unchanged. -/
theorem C3_unknown_agent_no_effect (m : AgentManager) (id rid : String)
    (body : Except Fault AgentResponse) (auditRes : Option Unit)
    (now dur mdur t : Nat) (h : lookupKey id m.agents = none) :
    m.execute_request id rid body auditRes now dur mdur = (m, none) ∧
    (m.execute_request id rid body auditRes now dur mdur).1.request_stats =
      m.request_stats ∧
    (m.execute_request id rid body auditRes now dur mdur).1.error_stats =
      m.error_stats ∧
    (m.execute_request id rid body auditRes now dur mdur).1.request_history =
      m.request_history ∧
    (m.execute_request id rid body auditRes now dur mdur).1.response_times =
      m.response_times ∧
    ((m.execute_request id rid body auditRes now dur
        mdur).1.get_manager_stats t).total_requests =
      (m.get_manager_stats t).total_requests ∧
    ((m.execute_request id rid body auditRes now dur
        mdur).1.get_manager_stats t).total_errors =
      (m.get_manager_stats t).total_errors := by
  have he : m.execute_request id rid body auditRes now dur mdur = (m, none) := by
    unfold AgentManager.execute_request
    rw [h]
  refine ⟨he, ?_, ?_, ?_, ?_, ?_, ?_⟩ <;> rw [he]

/-- C3 witness: the theorem applied to a fresh manager and an unknown
id. -/
theorem C3_unknown_agent_no_effect_witness :
    (AgentManager.mk0 true 0).execute_request "missing" "r1"
      (Except.error sampleFault) none 1 1 1 = (AgentManager.mk0 true 0, none) :=
  (C3_unknown_agent_no_effect (AgentManager.mk0 true 0) "missing" "r1"
    (Except.error sampleFault) none 1 1 1 7 (by decide)).1

/-- C4: a second `register_agent` call with an already-registered id
returns `false` and changes nothing: the three maps are untouched, the
collection size is unchanged, and the originally registered agent
remains the entry for that id. -/
theorem C4_duplicate_register_rejected (m : AgentManager) (b a0 : BaseAgent)
    (h : lookupKey b.agent_id m.agents = some a0) :
    m.register_agent b = (m, false) ∧
    (m.register_agent b).1.agents = m.agents ∧
    (m.register_agent b).1.agent_types = m.agent_types ∧
    (m.register_agent b).1.agent_capabilities = m.agent_capabilities ∧
    (m.register_agent b).1.agents.length = m.agents.length ∧
    lookupKey b.agent_id (m.register_agent b).1.agents = some a0 := by
  have he : m.register_agent b = (m, false) := by
    unfold AgentManager.register_agent
    rw [h]
    rfl
  refine ⟨he, ?_, ?_, ?_, ?_, ?_⟩ <;> rw [he]
  exact h

/-- C4 witness: registering the sample agent twice. -/
theorem C4_duplicate_register_rejected_witness :
    ((AgentManager.mk0 true 0).register_agent sampleAgent).1.register_agent
      sampleAgent =
      (((AgentManager.mk0 true 0).register_agent sampleAgent).1, false) :=
  (C4_duplicate_register_rejected
    ((AgentManager.mk0 true 0).register_agent sampleAgent).1 sampleAgent
    sampleAgent (by decide)).1

/-- C5: `find_agent_by_capability` (resp. `find_agent_by_type`)
returns the key of the first entry of the capability (resp. type)
index - iteration order is registration order - that declares the
capability (resp. has the type) and whose live agent is not in Error
state, and `None` exactly when no entry is eligible; a returned id
always names a live agent whose status is not Error. -/
theorem C5_find_first_eligible (m : AgentManager) (c : AgentCapability)
    (ty : AgentType) :
    (∀ id, m.find_agent_by_capability c = some id →
      ∃ pre caps post, m.agent_capabilities = pre ++ (id, caps) :: post ∧
        c ∈ caps ∧
        (∃ a, lookupKey id m.agents = some a ∧
          a.status ≠ AgentStatus.error) ∧
        ∀ q ∈ pre, eligibleCap m.agents c q = false) ∧
    (m.find_agent_by_capability c = none ↔
      ∀ q ∈ m.agent_capabilities, eligibleCap m.agents c q = false) ∧
    (∀ id, m.find_agent_by_type ty = some id →
      ∃ ty2 pre post, m.agent_types = pre ++ (id, ty2) :: post ∧
        ty2 = ty ∧
        (∃ a, lookupKey id m.agents = some a ∧
          a.status ≠ AgentStatus.error) ∧
        ∀ q ∈ pre, eligibleType m.agents ty q = false) ∧
    (m.find_agent_by_type ty = none ↔
      ∀ q ∈ m.agent_types, eligibleType m.agents ty q = false) := by
  refine ⟨?_, ?_, ?_, ?_⟩
  · intro id hfind
    obtain ⟨pre, caps, post, hl, helig, hpre⟩ := findLoop_some_first hfind
    obtain ⟨hc2, ha⟩ := (eligibleCap_iff m.agents c (id, caps)).mp helig
    exact ⟨pre, caps, post, hl, hc2, ha, hpre⟩
  · exact findLoop_none_iff _ _
  · intro id hfind
    obtain ⟨pre, ty2, post, hl, helig, hpre⟩ := findLoop_some_first hfind
    obtain ⟨hty, ha⟩ := (eligibleType_iff m.agents ty (id, ty2)).mp helig
    exact ⟨ty2, pre, post, hl, hty, ha, hpre⟩
  · exact findLoop_none_iff _ _

/-- C5 witness: the characterization applied to a one-agent manager:
the lookup of a capability nobody declares resolves to `None`. -/
theorem C5_find_first_eligible_witness :
    (reach true 0 sampleOps).find_agent_by_capability
      AgentCapability.web_search = none :=
  (C5_find_first_eligible (reach true 0 sampleOps)
    AgentCapability.web_search AgentType.audit).2.1.mpr (by decide)

/-- C6: after any operation sequence, every agent's rolling window of
execution durations has at most 100 entries, the manager's
response-time list and request history at most 1000 each, and the
trimming step always keeps a suffix of the appended list (oldest
entries are evicted first, chronological order preserved). -/
theorem C6_rolling_windows_capped (hc : Bool) (t : Nat) (ops : List MOp) :
    windowsBounded (reach hc t ops) ∧
    (∀ (l : List Nat) (x : Nat), trimTo 100 (l ++ [x]) <:+ l ++ [x]) ∧
    (∀ (l : List Nat) (x : Nat), trimTo 1000 (l ++ [x]) <:+ l ++ [x]) ∧
    (∀ (l : List AgentResponse) (x : AgentResponse),
      trimTo 1000 (l ++ [x]) <:+ l ++ [x]) := by
  refine ⟨windowsBounded_reach hc t ops, ?_, ?_, ?_⟩ <;>
    intro l x <;> exact trimTo_suffix _ _

/-- C6 witness: the cap theorem applied to a concrete trace. -/
theorem C6_rolling_windows_capped_witness :
    windowsBounded (reach true 0 sampleOps) :=
  (C6_rolling_windows_capped true 0 sampleOps).1

/-- C7, counterexample: Disabled is not terminal.  After registering an
agent and shutting the manager down, the agent is Disabled; a
subsequent `execute_request` routed to it is accepted (the guard only
rejects Error state) and leaves the agent Idle. -/
theorem C7_counterexample :
    (lookupKey "a1" (reach true 0 sampleShutdownOps).agents).map
      BaseAgent.status = some AgentStatus.disabled ∧
    (lookupKey "a1" (step (reach true 0 sampleShutdownOps)
        (MOp.execReq "a1" "r1" (Except.error sampleFault) none 1 1 1)).agents).map
      BaseAgent.status = some AgentStatus.idle := by
  exact ⟨by decide, by decide⟩

/-- C7 (amended): the Disabled status is set only by shutdown - no
other manager operation moves an agent to Disabled - but it is not
terminal: an `execute_request` routed to a Disabled agent runs it and
leaves it Idle, returning a response. -/
theorem C7_disabled_only_via_shutdown_not_terminal :
    (∀ (m : AgentManager) (op : MOp) (id : String) (a b : BaseAgent),
      lookupKey id m.agents = some a → a.status ≠ AgentStatus.disabled →
      lookupKey id (step m op).agents = some b →
      b.status = AgentStatus.disabled → op = MOp.managerShutdown) ∧
    (∀ (m : AgentManager) (id rid : String) (a : BaseAgent)
      (body : Except Fault AgentResponse) (auditRes : Option Unit)
      (now dur mdur : Nat),
      lookupKey id m.agents = some a → a.status = AgentStatus.disabled →
      (lookupKey id (m.execute_request id rid body auditRes now dur
          mdur).1.agents).map BaseAgent.status = some AgentStatus.idle ∧
      (m.execute_request id rid body auditRes now dur mdur).2.isSome = true) := by
  constructor
  · intro m op id a b h1 h3 h2 h4
    rcases step_agents_shape m op with hsh | hsh | hsh | hsh | ⟨hop, hsh⟩
    · rw [hsh, h1] at h2
      cases h2
      exact absurd h4 h3
    · obtain ⟨id0, nm, descr, ty, caps, now, hop, hfresh, hsh⟩ := hsh
      rw [hsh, lookupKey_append_some h1] at h2
      cases h2
      exact absurd h4 h3
    · obtain ⟨id0, hsh⟩ := hsh
      rw [hsh, lookupKey_removeKey] at h2
      by_cases hk : id = id0
      · rw [if_pos hk] at h2; cases h2
      · rw [if_neg hk, h1] at h2
        cases h2
        exact absurd h4 h3
    · obtain ⟨id0, a0, rid, body, au, now, dur, mdur, hop, hla, hsh⟩ := hsh
      rw [hsh, lookupKey_setKey] at h2
      by_cases hk : id = id0
      · rw [if_pos hk] at h2
        rw [hla] at h2
        simp only [Option.map_some'] at h2
        cases h2
        rw [execute_eq] at h4
        exact absurd h4 (by simp)
      · rw [if_neg hk, h1] at h2
        cases h2
        exact absurd h4 h3
    · exact hop
  · intro m id rid a body auditRes now dur mdur h1 h2
    have hne : ¬ a.status = AgentStatus.error := by
      rw [h2]; exact fun h => nomatch h
    rw [execute_request_known m id rid body auditRes now dur mdur a h1 hne]
    constructor
    · simp [lookupKey_setKey, h1, execute_eq]
    · rfl

/-- C7 witness: both parts applied at a concrete state: a shutdown
step disabling a live agent, and an `execute_request` on the disabled
agent returning it to Idle. -/
theorem C7_disabled_only_via_shutdown_not_terminal_witness :
    (lookupKey "a1" ((reach true 0 sampleShutdownOps).execute_request "a1"
        "r1" (Except.error sampleFault) none 1 1 1).1.agents).map
      BaseAgent.status = some AgentStatus.idle :=
  (C7_disabled_only_via_shutdown_not_terminal.2
    (reach true 0 sampleShutdownOps) "a1" "r1"
    (BaseAgent.shutdown (BaseAgent.mk0 "a1" "agent one" "demo" AgentType.audit
      [AgentCapability.audit_logging] 0))
    (Except.error sampleFault) none 1 1 1 (by decide) (by decide)).1

/-- C8: after any sequence of operations the three maps share one key
set - same ids in the same order, no duplicates - so an id is in the
type or capability index exactly when it is in the primary agents
collection. -/
theorem C8_index_key_sets_aligned (hc : Bool) (t : Nat) (ops : List MOp) :
    keysAligned (reach hc t ops) ∧
    (∀ id, (lookupKey id (reach hc t ops).agent_types).isSome =
      (lookupKey id (reach hc t ops).agents).isSome) ∧
    (∀ id, (lookupKey id (reach hc t ops).agent_capabilities).isSome =
      (lookupKey id (reach hc t ops).agents).isSome) := by
  have h := keysAligned_reach hc t ops
  exact ⟨h, fun id => lookupKey_isSome_congr h.1 id,
    fun id => lookupKey_isSome_congr h.2.1 id⟩

/-- C9: shutdown is idempotent at both the agent and the manager
level (second call is the identity on the state the first produced),
and after a manager shutdown every registered agent is Disabled. -/
theorem C9_shutdown_idempotent (m : AgentManager) (a : BaseAgent) :
    AgentManager.shutdown (AgentManager.shutdown m) = AgentManager.shutdown m ∧
    BaseAgent.shutdown (BaseAgent.shutdown a) = BaseAgent.shutdown a ∧
    (∀ id b, lookupKey id (AgentManager.shutdown m).agents = some b →
      b.status = AgentStatus.disabled) := by
  refine ⟨?_, rfl, ?_⟩
  · unfold AgentManager.shutdown
    simp only [List.map_map]
    rfl
  · intro id b hb
    unfold AgentManager.shutdown at hb
    have : lookupKey id (m.agents.map (fun p =>
        (p.1, BaseAgent.shutdown p.2))) = some b := hb
    have hmem := lookupKey_mem this
    rcases List.mem_map.mp hmem with ⟨q, _, hqe⟩
    have : b = BaseAgent.shutdown q.2 := congrArg Prod.snd hqe.symm
    rw [this]
    rfl

/-- C9 witness: the idempotence theorem applied to a concrete manager
and agent, plus the all-Disabled conclusion at the concrete registered
agent. -/
theorem C9_shutdown_idempotent_witness :
    AgentManager.shutdown (AgentManager.shutdown (reach true 0 sampleOps)) =
      AgentManager.shutdown (reach true 0 sampleOps) ∧
    (BaseAgent.shutdown (BaseAgent.shutdown sampleAgent)).status =
      AgentStatus.disabled := by
  have h := C9_shutdown_idempotent (reach true 0 sampleOps) sampleAgent
  refine ⟨h.1, ?_⟩
  rw [h.2.1]
  rfl

/-- C10: the cache counters of every reachable registered agent keep
their initial value 0, so the health snapshot reports
`cache_hit_rate = 0` and the metadata snapshot reports
`cache_hits = cache_misses = 0`. -/
theorem C10_cache_counters_stay_zero (hc : Bool) (t now : Nat)
    (ops : List MOp) (id : String) (a : BaseAgent)
    (h : lookupKey id (reach hc t ops).agents = some a) :
    a.cache_hits = 0 ∧ a.cache_misses = 0 ∧
    (a.get_health_status now).cache_hit_rate = 0 ∧
    (a.get_metadata).metadata.cache_hits = 0 ∧
    (a.get_metadata).metadata.cache_misses = 0 := by
  have hz := cacheZero_reach hc t ops (id, a) (lookupKey_mem h)
  have hz1 : a.cache_hits = 0 := hz.1
  have hz2 : a.cache_misses = 0 := hz.2
  refine ⟨hz1, hz2, ?_, ?_, ?_⟩
  · unfold BaseAgent.get_health_status
    simp [hz1]
  · unfold BaseAgent.get_metadata
    simpa using hz1
  · unfold BaseAgent.get_metadata
    simpa using hz2

/-- C10 witness: the cache-counter theorem applied to the concrete
one-agent trace. -/
theorem C10_cache_counters_stay_zero_witness :
    (BaseAgent.mk0 "a1" "agent one" "demo" AgentType.audit
        [AgentCapability.audit_logging] 0).cache_hits = 0 ∧
    ((BaseAgent.mk0 "a1" "agent one" "demo" AgentType.audit
        [AgentCapability.audit_logging] 0).get_health_status 9).cache_hit_rate
      = 0 := by
  have h := C10_cache_counters_stay_zero true 0 9 sampleOps "a1"
    (BaseAgent.mk0 "a1" "agent one" "demo" AgentType.audit
      [AgentCapability.audit_logging] 0) (by decide)
  exact ⟨h.1, h.2.2.1⟩

end Chronicler
